import Mathlib

set_option linter.unusedVariables false

/-!
Shallow embedding of `src/utils/labelled_image_preparation.py`, function
`data_to_labelled_img`.

Modelling conventions:
* Series values are rationals (`ℚ`); numpy arrays and pandas columns are
  Lean lists.
* The external labeler `local_min_max` (package `labels`, outside `src/`)
  and the four external image transforms (package `transform`, outside
  `src/`) are passed as function parameters, so every theorem quantifies
  over all collaborators satisfying the spec's boundary contracts.
* Python's fallible behaviour is made explicit: a normal return of the
  5-tuple is `PyResult.ok`, the bare `return()` used by the source for
  configuration problems is `PyResult.emptyReturn`, and a raised exception
  is `PyResult.exn`.
-/

/-- Image produced by one transform for one window: a 2-D numeric array. -/
abbrev Image := List (List ℚ)

/-- Python exceptions raised by the modelled fragment: a pandas `KeyError`
carrying the missing column names, an `eval` `NameError` carrying the
undefined variable name, and the `TypeError` from concatenating a string
with a list. -/
inductive PyErr where
  | keyError : List String → PyErr
  | nameError : String → PyErr
  | typeError : PyErr
deriving DecidableEq

/-- Outcome of a call to the Python function: a structured return value, the
bare `return()` the source uses on invalid configuration, or a raised
exception. -/
inductive PyResult (α : Type) where
  | ok : α → PyResult α
  | emptyReturn : PyResult α
  | exn : PyErr → PyResult α
deriving DecidableEq

/-- Argument `image_trf_strat`: either one strategy name (a Python string)
or a list of names. -/
inductive StratSel where
  | str : String → StratSel
  | list : List String → StratSel
deriving DecidableEq

/-- Normalisation of one Python slice index for step-1 slices `l[a:b]`:
negative indices count from the end, and the result is clamped to
`[0, len]`. -/
def sliceIdx (n : Nat) (i : Int) : Nat :=
  (if i < 0 then max ((n : Int) + i) 0 else min i (n : Int)).toNat

/-- Python step-1 slice `l[a:b]` (with both endpoints present), including
the negative-index convention.  Note that `l[a:-0]` is `l[a:0]`, i.e.
empty: a stop of `-0` does not mean "to the end". -/
def pySlice (l : List α) (start stop : Int) : List α :=
  (l.drop (sliceIdx l.length start)).take (sliceIdx l.length stop - sliceIdx l.length start)

/-- One-step relative returns, `series[1:]/series[:-1] - 1` (length one
less than the input). -/
def returnsOf (s : List ℚ) : List ℚ :=
  (s.drop 1).zipWith (fun a b => a / b - 1) s.dropLast

/-- Guard bound `np.ceil(label_window_size/2)` as a natural number. -/
def ceilHalf (L : Nat) : Nat := (L + 1) / 2

/-- Pandas data frame restricted to what the source consumes after
`get_dummies`: named columns over rows of 0/1 entries. -/
structure DFrame where
  columns : List String
  rows : List (List Nat)
deriving DecidableEq

/-- Lexicographic order on character lists, by code point. -/
def charListLe : List Char → List Char → Bool
  | [], _ => true
  | _ :: _, [] => false
  | a :: as, b :: bs =>
    if a.toNat < b.toNat then true
    else if b.toNat < a.toNat then false
    else charListLe as bs

/-- Lexicographic order on strings, by code point (the order pandas uses
when sorting category uniques). -/
def strLe (a b : String) : Bool := charListLe a.toList b.toList

/-- Insertion of a string into a lexicographically sorted list. -/
def insertSorted (x : String) : List String → List String
  | [] => [x]
  | y :: ys => if strLe x y then x :: y :: ys else y :: insertSorted x ys

/-- Insertion sort on strings; pandas sorts the category uniques when
building dummy columns. -/
def sortStrings : List String → List String
  | [] => []
  | x :: xs => insertSorted x (sortStrings xs)

/-- Model of `pd.get_dummies(labelled_pd.Strategy)`: one indicator column
per distinct label value, columns in sorted order. -/
def get_dummies (labels : List String) : DFrame :=
  let cols := sortStrings labels.dedup
  ⟨cols, labels.map fun x => cols.map fun c => if x = c then 1 else 0⟩

/-- First index of a column name in a column list (models
`np.int(np.argwhere(label_colnames == name))`, which the source only
evaluates on a present, unique name). -/
def colIndex (cols : List String) (c : String) : Nat :=
  match cols with
  | [] => 0
  | x :: xs => if x = c then 0 else colIndex xs c + 1

/-- Model of `dummies[['Sell', 'Buy', 'Hold']]`: column selection by a list
of labels.  Any requested column that does not exist raises a `KeyError`
naming the missing columns; extra existing columns are silently dropped. -/
def selectColumns (df : DFrame) (cols : List String) : Except PyErr DFrame :=
  if ∀ c ∈ cols, c ∈ df.columns then
    .ok ⟨cols, df.rows.map fun r => cols.map fun c => r.getD (colIndex df.columns c) 0⟩
  else
    .error (.keyError (cols.filter fun c => ¬ decide (c ∈ df.columns)))

/-- Substring test on character lists (Python `needle in haystack` for
strings). -/
def listContainsSub (hay needle : List Char) : Bool :=
  (List.range (hay.length + 1)).any fun i => needle.isPrefixOf (hay.drop i)

/-- Python membership `name in image_trf_strat`: substring containment for
a string selection, list membership for a list selection. -/
def pyIn (needle : String) : StratSel → Bool
  | .str s => listContainsSub s.toList needle.toList
  | .list l => l.contains needle

/-- Python `len(image_trf_strat)`. -/
def selLen : StratSel → Nat
  | .str s => s.length
  | .list l => l.length

/-- Python `type(image_trf_strat) == list`. -/
def isListSel : StratSel → Bool
  | .str _ => false
  | .list _ => true

/-- Names iterated by `for trf in image_trf_strat`; the source only reaches
this loop when the selection is a list. -/
def selNames : StratSel → List String
  | .str _ => []
  | .list l => l

/-- Whether a name consists only of ASCII identifier constituents (letters,
digits, underscore).  For such a name, `"images_" ++ name` is a single
Python identifier, so `eval("images_" + name)` is exactly a variable
lookup.  For other names `eval` tokenizes further — trailing whitespace or
a comment still evaluates the identifier prefix (so e.g. the unknown name
"RP " can succeed by evaluating `images_RP`), operator text forms a larger
expression, and ill-formed text raises `SyntaxError`; that region is
outside this model, and theorems about unknown names restrict to this
identifier fragment. -/
def pyIdentSuffix (s : String) : Bool :=
  s.toList.all fun c => c.isAlphanum || c = '_'

/-- Modelled from the spec: the four external image transforms (packages
`transform.*`, not under `src/`), each taken as an abstract function from
the trimmed series and its options to an image array.  Only the image
component of each transform's Python return tuple is consumed by the code
under verification, so only it is modelled. -/
structure Transforms where
  GASF : List ℚ → Nat → Bool → List Image
  GADF : List ℚ → Nat → Bool → List Image
  RP : List ℚ → Nat → Nat → Bool → List Image
  MTF : List ℚ → Nat → Nat → List Image

/-- Image array computed for one recognised strategy name (the right-hand
sides are exactly the transform invocations of the source). -/
def knownImages (tf : Transforms) (trimmed : List ℚ) (image_window_size num_bin padding_RP : Nat)
    (standardize_out_RP standardize_out_GASF standardize_out_GADF : Bool)
    (name : String) : List Image :=
  if name = "GASF" then tf.GASF trimmed image_window_size standardize_out_GASF
  else if name = "GADF" then tf.GADF trimmed image_window_size standardize_out_GADF
  else if name = "RP" then tf.RP trimmed image_window_size padding_RP standardize_out_RP
  else if name = "MTF" then tf.MTF trimmed image_window_size num_bin
  else []

/-- Lookup of the local variable `images_<name>` as performed by
`eval("images_" + trf)` on a string `trf` within the identifier fragment
(see `pyIdentSuffix`): there `"images_" ++ name` is a single identifier,
the defined variables are the four conditionally assigned arrays, and any
other identifier raises `NameError` naming it.  Outside that fragment the
real `eval` parses the string as arbitrary Python (it can succeed, e.g. on
a known name with trailing whitespace, or raise `SyntaxError`); theorems
quantifying over unknown names therefore carry a `pyIdentSuffix`
hypothesis. -/
def evalImagesVar (gasf gadf rp mtf : Option (List Image)) (name : String) :
    Except PyErr (List Image) :=
  match (if name = "GASF" then gasf
         else if name = "GADF" then gadf
         else if name = "RP" then rp
         else if name = "MTF" then mtf
         else none) with
  | some imgs => .ok imgs
  | none => .error (.nameError ("images_" ++ name))

/-- The loop `for trf in image_trf_strat: images.append(eval("images_" + trf))`:
evaluates each name in order, raising at the first undefined one. -/
def evalAll (gasf gadf rp mtf : Option (List Image)) : List String → Except PyErr (List (List Image))
  | [] => .ok []
  | n :: rest =>
    match evalImagesVar gasf gadf rp mtf n with
    | .error e => .error e
    | .ok imgs =>
      match evalAll gasf gadf rp mtf rest with
      | .error e => .error e
      | .ok more => .ok (imgs :: more)

/-- Entry of a 3-D array (strategy image stack) at position `(n, h, w)`,
with numpy-style in-bounds access modelled through defaults. -/
def cellAt (s : List (List (List ℚ))) (n h w : Nat) : ℚ :=
  ((s.getD n []).getD h []).getD w 0

/-- Model of `np.moveaxis(images, 0, -1)` on the list of per-strategy image
arrays (shape `(k, num, H, W)` to `(num, H, W, k)`), for rectangular input;
the output dimensions are read off the first strategy's array. -/
def stackChannelsLast (xs : List (List (List (List ℚ)))) : List (List (List (List ℚ))) :=
  match xs with
  | [] => []
  | x0 :: rest =>
    (List.range x0.length).map fun n =>
      (List.range (x0.getD n []).length).map fun h =>
        (List.range ((x0.getD n []).getD h []).length).map fun w =>
          (x0 :: rest).map fun s => cellAt s n h w

/-- Channel `i` of a channels-last 4-D tensor. -/
def channelOf (t : List (List (List (List ℚ)))) (i : Nat) : List (List (List ℚ)) :=
  t.map fun img => img.map fun row => row.map fun cell => cell.getD i 0

/-- Shape of a 3-D array, as the per-image list of row lengths. -/
def shape3 (a : List (List (List ℚ))) : List (List Nat) :=
  a.map fun img => img.map fun r => r.length

/-- Numpy shape of a rectangular 2-D array. -/
def shape2 (a : List (List ℚ)) : List Nat :=
  [a.length, (a.headD []).length]

/-- Returned image tensor: a single strategy's 3-D array (no trailing
channel axis) or the channels-last 4-D stack. -/
inductive ImageTensor where
  | single : List (List (List ℚ)) → ImageTensor
  | stacked : List (List (List (List ℚ))) → ImageTensor
deriving DecidableEq

/-- Leading dimension (`len(...)`) of the returned image tensor. -/
def imagesLen : ImageTensor → Nat
  | .single a => a.length
  | .stacked t => t.length

/-- The 5-tuple returned on success: labelled frame (Series value and
Strategy label per timestamp), `price_at_image` (reshaped to a column),
image tensor, one-hot label rows, and the index-to-category map. -/
structure LabelledImgResult where
  labelled_pd : List (ℚ × String)
  price_at_image : List (List ℚ)
  images : ImageTensor
  image_labels : List (List Nat)
  label_names : List (Nat × String)
deriving DecidableEq

/-- Slice start used for the label and price arrays: `image_window_size`
on the returns basis, `image_window_size - 1` on the price basis (source
lines 99-112). -/
def labelSliceStart (image_window_size : Nat) (use_returns : Bool) : Int :=
  if use_returns then (image_window_size : Int) else (image_window_size : Int) - 1

/-- Slice stop `-np.int(label_window_size/2)` used for the label and price
arrays and for trimming the series before the transforms. -/
def labelSliceStop (label_window_size : Nat) : Int :=
  -((label_window_size / 2 : Nat) : Int)

/-- Series used for imaging — the input values, or the returns when
`use_returns` is set — trimmed of the trailing half label window, i.e.
`series[:-np.int(label_window_size/2)]` as passed to every transform. -/
def trimmedSeries (data : List ℚ) (label_window_size : Nat) (use_returns : Bool) : List ℚ :=
  pySlice (if use_returns then returnsOf data else data) 0 (labelSliceStop label_window_size)

/-- Optional value of the local variable `images_GASF` after the guarded
assignment `if "GASF" in image_trf_strat: images_GASF = GASF(...)`. -/
def imagesVarGASF (tf : Transforms) (trimmed : List ℚ) (image_window_size : Nat)
    (standardize_out_GASF : Bool) (sel : StratSel) : Option (List Image) :=
  if pyIn "GASF" sel then some (tf.GASF trimmed image_window_size standardize_out_GASF) else none

/-- Optional value of the local variable `images_GADF` after its guarded
assignment. -/
def imagesVarGADF (tf : Transforms) (trimmed : List ℚ) (image_window_size : Nat)
    (standardize_out_GADF : Bool) (sel : StratSel) : Option (List Image) :=
  if pyIn "GADF" sel then some (tf.GADF trimmed image_window_size standardize_out_GADF) else none

/-- Optional value of the local variable `images_RP` after its guarded
assignment. -/
def imagesVarRP (tf : Transforms) (trimmed : List ℚ) (image_window_size padding_RP : Nat)
    (standardize_out_RP : Bool) (sel : StratSel) : Option (List Image) :=
  if pyIn "RP" sel then some (tf.RP trimmed image_window_size padding_RP standardize_out_RP) else none

/-- Optional value of the local variable `images_MTF` after its guarded
assignment. -/
def imagesVarMTF (tf : Transforms) (trimmed : List ℚ) (image_window_size num_bin : Nat)
    (sel : StratSel) : Option (List Image) :=
  if pyIn "MTF" sel then some (tf.MTF trimmed image_window_size num_bin) else none

/-- Shallow embedding of `data_to_labelled_img`.  The external labeler is
the parameter `local_min_max` (only its labelled frame output is consumed)
and the external transforms are the parameter `tf`; `data` is the selected
numeric column of the input frame. -/
def data_to_labelled_img (local_min_max : List ℚ → Nat → List (ℚ × String))
    (tf : Transforms) (data : List ℚ)
    (label_window_size image_window_size : Nat) (image_trf_strat : StratSel)
    (num_bin : Nat) (padding_RP : Nat)
    (standardize_out_RP standardize_out_GASF standardize_out_GADF : Bool)
    (use_returns : Bool) : PyResult LabelledImgResult :=
  if image_window_size < ceilHalf label_window_size then
    .emptyReturn
  else
    let series := data
    let labelled_pd := local_min_max series label_window_size
    match selectColumns (get_dummies (labelled_pd.map Prod.snd)) ["Sell", "Buy", "Hold"] with
    | .error e => .exn e
    | .ok dummies =>
      let label_colnames := dummies.columns
      let image_labels :=
        pySlice dummies.rows (labelSliceStart image_window_size use_returns)
          (labelSliceStop label_window_size)
      let price_at_image :=
        (pySlice (labelled_pd.map Prod.fst) (labelSliceStart image_window_size use_returns)
          (labelSliceStop label_window_size)).map fun x => [x]
      let trimmed := trimmedSeries series label_window_size use_returns
      let images_GASF := imagesVarGASF tf trimmed image_window_size standardize_out_GASF image_trf_strat
      let images_GADF := imagesVarGADF tf trimmed image_window_size standardize_out_GADF image_trf_strat
      let images_RP := imagesVarRP tf trimmed image_window_size padding_RP standardize_out_RP image_trf_strat
      let images_MTF := imagesVarMTF tf trimmed image_window_size num_bin image_trf_strat
      if selLen image_trf_strat = 0 then
        .emptyReturn
      else
        let label_names := [(colIndex label_colnames "Sell", "Sell"),
                            (colIndex label_colnames "Buy", "Buy"),
                            (colIndex label_colnames "Hold", "Hold")]
        if isListSel image_trf_strat = true ∧ 1 < selLen image_trf_strat then
          match evalAll images_GASF images_GADF images_RP images_MTF (selNames image_trf_strat) with
          | .error e => .exn e
          | .ok arrs =>
            .ok ⟨labelled_pd, price_at_image, .stacked (stackChannelsLast arrs),
                 image_labels, label_names⟩
        else
          match (match image_trf_strat with
                 | .str s => evalImagesVar images_GASF images_GADF images_RP images_MTF s
                 | .list _ => .error .typeError) with
          | .error e => .exn e
          | .ok arr =>
            .ok ⟨labelled_pd, price_at_image, .single arr, image_labels, label_names⟩

/-- Fixed one-hot row of a label in the canonical (Sell, Buy, Hold) column
order; `selectColumns (get_dummies ls)` produces exactly these rows. -/
def onehot3 (x : String) : List Nat :=
  [if x = "Sell" then 1 else 0, if x = "Buy" then 1 else 0, if x = "Hold" then 1 else 0]

/-- Strategy names the source can dispatch on. -/
def knownStrats : List String := ["GASF", "GADF", "RP", "MTF"]

/-- One-hot image labels of a successful call. -/
def resultLabels : PyResult LabelledImgResult → Option (List (List Nat))
  | .ok r => some r.image_labels
  | _ => none

/-- Price-at-image column of a successful call. -/
def resultPrice : PyResult LabelledImgResult → Option (List (List ℚ))
  | .ok r => some r.price_at_image
  | _ => none

/-- Label-name map of a successful call. -/
def resultNames : PyResult LabelledImgResult → Option (List (Nat × String))
  | .ok r => some r.label_names
  | _ => none

/-- Image tensor of a successful call. -/
def resultImages : PyResult LabelledImgResult → Option ImageTensor
  | .ok r => some r.images
  | _ => none

/-- Whether a call returned the normal 5-tuple. -/
def isOkResult : PyResult LabelledImgResult → Bool
  | .ok _ => true
  | _ => false

theorem sliceIdx_le (n : Nat) (i : Int) : sliceIdx n i ≤ n := by
  unfold sliceIdx
  split <;> omega

theorem length_pySlice (l : List α) (a b : Int) :
    (pySlice l a b).length = sliceIdx l.length b - sliceIdx l.length a := by
  have h := sliceIdx_le l.length b
  simp only [pySlice, List.length_take, List.length_drop]
  omega

theorem mem_insertSorted {y x : String} {l : List String} :
    y ∈ insertSorted x l ↔ y = x ∨ y ∈ l := by
  induction l with
  | nil => simp [insertSorted]
  | cons z zs ih =>
    simp only [insertSorted]
    split
    · simp [List.mem_cons]
    · simp only [List.mem_cons, ih]
      tauto

theorem mem_sortStrings {y : String} {l : List String} : y ∈ sortStrings l ↔ y ∈ l := by
  induction l with
  | nil => simp [sortStrings]
  | cons x xs ih => simp [sortStrings, mem_insertSorted, ih]

theorem getD_map_colIndex {α : Type} (g : String → α) (d : α) :
    ∀ (cols : List String) (c : String), c ∈ cols → (cols.map g).getD (colIndex cols c) d = g c := by
  intro cols
  induction cols with
  | nil => intro c hc; simp at hc
  | cons x xs ih =>
    intro c hc
    by_cases hxc : x = c
    · subst hxc; simp [colIndex]
    · have hcs : c ∈ xs := by
        rcases List.mem_cons.mp hc with h | h
        · exact absurd h.symm hxc
        · exact h
      show ((x :: xs).map g).getD (colIndex (x :: xs) c) d = g c
      simp only [colIndex, if_neg hxc, List.map_cons, List.getD_cons_succ]
      exact ih c hcs

theorem selectColumns_get_dummies_ok {ls : List String}
    (hS : "Sell" ∈ ls) (hB : "Buy" ∈ ls) (hH : "Hold" ∈ ls) :
    selectColumns (get_dummies ls) ["Sell", "Buy", "Hold"] =
      Except.ok ⟨["Sell", "Buy", "Hold"], ls.map onehot3⟩ := by
  have hmem : ∀ c, c ∈ ls → c ∈ sortStrings ls.dedup := fun c hc =>
    mem_sortStrings.mpr (List.mem_dedup.mpr hc)
  have hcols : ∀ c ∈ ["Sell", "Buy", "Hold"], c ∈ (get_dummies ls).columns := by
    intro c hc
    fin_cases hc
    · exact hmem _ hS
    · exact hmem _ hB
    · exact hmem _ hH
  unfold selectColumns
  rw [if_pos hcols]
  have hrows : (get_dummies ls).rows.map
      (fun r => ["Sell", "Buy", "Hold"].map fun c => r.getD (colIndex (get_dummies ls).columns c) 0)
      = ls.map onehot3 := by
    simp only [get_dummies, List.map_map]
    refine List.map_congr_left fun x _ => ?_
    simp only [Function.comp_apply, List.map_cons, List.map_nil,
      getD_map_colIndex (fun c' => if x = c' then (1 : Nat) else 0) 0 _ _ (hmem _ hS),
      getD_map_colIndex (fun c' => if x = c' then (1 : Nat) else 0) 0 _ _ (hmem _ hB),
      getD_map_colIndex (fun c' => if x = c' then (1 : Nat) else 0) 0 _ _ (hmem _ hH)]
    rfl
  rw [hrows]

theorem selectColumns_get_dummies_inv {ls : List String} {d : DFrame}
    (h : selectColumns (get_dummies ls) ["Sell", "Buy", "Hold"] = Except.ok d) :
    ("Sell" ∈ ls ∧ "Buy" ∈ ls ∧ "Hold" ∈ ls) ∧
      d = ⟨["Sell", "Buy", "Hold"], ls.map onehot3⟩ := by
  by_cases hc : ∀ c ∈ ["Sell", "Buy", "Hold"], c ∈ (get_dummies ls).columns
  · have hmem : ∀ c, c ∈ (get_dummies ls).columns → c ∈ ls := by
      intro c hcc
      have : c ∈ sortStrings ls.dedup := hcc
      exact List.mem_dedup.mp (mem_sortStrings.mp this)
    have hS : "Sell" ∈ ls := hmem _ (hc _ (by simp))
    have hB : "Buy" ∈ ls := hmem _ (hc _ (by simp))
    have hH : "Hold" ∈ ls := hmem _ (hc _ (by simp))
    rw [selectColumns_get_dummies_ok hS hB hH] at h
    cases h
    exact ⟨⟨hS, hB, hH⟩, rfl⟩
  · unfold selectColumns at h
    rw [if_neg hc] at h
    cases h

theorem evalImagesVar_env_ok {tf : Transforms} {trimmed : List ℚ}
    {image_window_size num_bin padding_RP : Nat} {r1 r2 r3 : Bool} {sel : StratSel} {n : String}
    (hn : n ∈ knownStrats) (hin : pyIn n sel = true) :
    evalImagesVar
      (imagesVarGASF tf trimmed image_window_size r2 sel)
      (imagesVarGADF tf trimmed image_window_size r3 sel)
      (imagesVarRP tf trimmed image_window_size padding_RP r1 sel)
      (imagesVarMTF tf trimmed image_window_size num_bin sel) n =
      .ok (knownImages tf trimmed image_window_size num_bin padding_RP r1 r2 r3 n) := by
  fin_cases hn <;>
    simp [evalImagesVar, knownImages, imagesVarGASF, imagesVarGADF, imagesVarRP, imagesVarMTF, hin]

theorem evalImagesVar_env_ok_inv {tf : Transforms} {trimmed : List ℚ}
    {image_window_size num_bin padding_RP : Nat} {r1 r2 r3 : Bool} {sel : StratSel}
    {n : String} {a : List Image}
    (h : evalImagesVar
      (imagesVarGASF tf trimmed image_window_size r2 sel)
      (imagesVarGADF tf trimmed image_window_size r3 sel)
      (imagesVarRP tf trimmed image_window_size padding_RP r1 sel)
      (imagesVarMTF tf trimmed image_window_size num_bin sel) n = .ok a) :
    n ∈ knownStrats ∧ a = knownImages tf trimmed image_window_size num_bin padding_RP r1 r2 r3 n := by
  unfold evalImagesVar at h
  split at h
  · rename_i imgs heq
    cases h
    unfold imagesVarGASF imagesVarGADF imagesVarRP imagesVarMTF at heq
    split at heq
    · rename_i hn
      subst hn
      split at heq
      · cases heq; exact ⟨by decide, rfl⟩
      · cases heq
    · split at heq
      · rename_i hn
        subst hn
        split at heq
        · cases heq; exact ⟨by decide, rfl⟩
        · cases heq
      · split at heq
        · rename_i hn
          subst hn
          split at heq
          · cases heq; exact ⟨by decide, rfl⟩
          · cases heq
        · split at heq
          · rename_i hn
            subst hn
            split at heq
            · cases heq; exact ⟨by decide, rfl⟩
            · cases heq
          · cases heq
  · rename_i heq
    cases h

theorem evalImagesVar_unknown {gasf gadf rp mtf : Option (List Image)} {n : String}
    (hn : n ∉ knownStrats) :
    evalImagesVar gasf gadf rp mtf n = .error (.nameError ("images_" ++ n)) := by
  have h1 : ¬ n = "GASF" := fun h => hn (by simp [knownStrats, h])
  have h2 : ¬ n = "GADF" := fun h => hn (by simp [knownStrats, h])
  have h3 : ¬ n = "RP" := fun h => hn (by simp [knownStrats, h])
  have h4 : ¬ n = "MTF" := fun h => hn (by simp [knownStrats, h])
  unfold evalImagesVar
  rw [if_neg h1, if_neg h2, if_neg h3, if_neg h4]

theorem evalAll_ok {gasf gadf rp mtf : Option (List Image)} {f : String → List Image}
    {names : List String}
    (h : ∀ n ∈ names, evalImagesVar gasf gadf rp mtf n = .ok (f n)) :
    evalAll gasf gadf rp mtf names = .ok (names.map f) := by
  induction names with
  | nil => rfl
  | cons n rest ih =>
    simp only [evalAll, h n (List.mem_cons_self n rest),
      ih fun m hm => h m (List.mem_cons_of_mem n hm), List.map_cons]

theorem evalAll_env_ok_inv {tf : Transforms} {trimmed : List ℚ}
    {image_window_size num_bin padding_RP : Nat} {r1 r2 r3 : Bool} {sel : StratSel}
    {names : List String} {arrs : List (List Image)}
    (h : evalAll
      (imagesVarGASF tf trimmed image_window_size r2 sel)
      (imagesVarGADF tf trimmed image_window_size r3 sel)
      (imagesVarRP tf trimmed image_window_size padding_RP r1 sel)
      (imagesVarMTF tf trimmed image_window_size num_bin sel) names = .ok arrs) :
    (∀ n ∈ names, n ∈ knownStrats) ∧
      arrs = names.map (knownImages tf trimmed image_window_size num_bin padding_RP r1 r2 r3) := by
  induction names generalizing arrs with
  | nil =>
    cases h
    exact ⟨by simp, rfl⟩
  | cons n rest ih =>
    unfold evalAll at h
    split at h
    · cases h
    · rename_i imgs heq
      split at h
      · cases h
      · rename_i more heq2
        cases h
        obtain ⟨hn, ha⟩ := evalImagesVar_env_ok_inv heq
        obtain ⟨hrest, harrs⟩ := ih heq2
        refine ⟨fun m hm => ?_, ?_⟩
        · rcases List.mem_cons.mp hm with rfl | hm'
          · exact hn
          · exact hrest m hm'
        · rw [List.map_cons, ha, harrs]

theorem evalAll_first_error {gasf gadf rp mtf : Option (List Image)}
    {names : List String} {u : String}
    (hok : ∀ n ∈ names, n ∈ knownStrats → ∃ a, evalImagesVar gasf gadf rp mtf n = .ok a)
    (hu : names.find? (fun n => !(knownStrats.contains n)) = some u) :
    evalAll gasf gadf rp mtf names = .error (.nameError ("images_" ++ u)) := by
  induction names with
  | nil => cases hu
  | cons n rest ih =>
    by_cases hkn : n ∈ knownStrats
    · have hd : (!(knownStrats.contains n)) = false := by
        unfold List.contains
        rw [List.elem_eq_true_of_mem hkn]
        rfl
      simp only [List.find?_cons, hd] at hu
      obtain ⟨a, ha⟩ := hok n (List.mem_cons_self n rest) hkn
      have hrest := ih (fun m hm h => hok m (List.mem_cons_of_mem n hm) h) hu
      simp only [evalAll, ha, hrest]
    · have hc : knownStrats.contains n = false := by
        cases hcc : knownStrats.contains n
        · rfl
        · exact absurd (List.mem_of_elem_eq_true hcc) hkn
      have hd : (!(knownStrats.contains n)) = true := by rw [hc]; rfl
      simp only [List.find?_cons, hd] at hu
      cases hu
      simp only [evalAll, evalImagesVar_unknown hkn]

/-- Names the caller requested: the single string itself, or the list
elements. -/
def selRequested : StratSel → List String
  | .str s => [s]
  | .list l => l

theorem data_to_labelled_img_str_ok
    {local_min_max : List ℚ → Nat → List (ℚ × String)} {tf : Transforms} {data : List ℚ}
    {label_window_size image_window_size : Nat} {s : String}
    {num_bin padding_RP : Nat} {r1 r2 r3 : Bool} {use_returns : Bool}
    (hW : ¬ image_window_size < ceilHalf label_window_size)
    (hS : "Sell" ∈ (local_min_max data label_window_size).map Prod.snd)
    (hB : "Buy" ∈ (local_min_max data label_window_size).map Prod.snd)
    (hH : "Hold" ∈ (local_min_max data label_window_size).map Prod.snd)
    (hs : s ∈ knownStrats) :
    data_to_labelled_img local_min_max tf data label_window_size image_window_size (.str s)
        num_bin padding_RP r1 r2 r3 use_returns =
      .ok ⟨local_min_max data label_window_size,
           (pySlice ((local_min_max data label_window_size).map Prod.fst)
             (labelSliceStart image_window_size use_returns)
             (labelSliceStop label_window_size)).map (fun x => [x]),
           .single (knownImages tf (trimmedSeries data label_window_size use_returns)
             image_window_size num_bin padding_RP r1 r2 r3 s),
           pySlice (((local_min_max data label_window_size).map Prod.snd).map onehot3)
             (labelSliceStart image_window_size use_returns) (labelSliceStop label_window_size),
           [(0, "Sell"), (1, "Buy"), (2, "Hold")]⟩ := by
  fin_cases hs <;>
    · simp only [data_to_labelled_img, if_neg hW, selectColumns_get_dummies_ok hS hB hH]
      rfl

theorem data_to_labelled_img_list_ok
    {local_min_max : List ℚ → Nat → List (ℚ × String)} {tf : Transforms} {data : List ℚ}
    {label_window_size image_window_size : Nat} {l : List String}
    {num_bin padding_RP : Nat} {r1 r2 r3 : Bool} {use_returns : Bool}
    (hW : ¬ image_window_size < ceilHalf label_window_size)
    (hS : "Sell" ∈ (local_min_max data label_window_size).map Prod.snd)
    (hB : "Buy" ∈ (local_min_max data label_window_size).map Prod.snd)
    (hH : "Hold" ∈ (local_min_max data label_window_size).map Prod.snd)
    (hlen : 1 < l.length) (hall : ∀ n ∈ l, n ∈ knownStrats) :
    data_to_labelled_img local_min_max tf data label_window_size image_window_size (.list l)
        num_bin padding_RP r1 r2 r3 use_returns =
      .ok ⟨local_min_max data label_window_size,
           (pySlice ((local_min_max data label_window_size).map Prod.fst)
             (labelSliceStart image_window_size use_returns)
             (labelSliceStop label_window_size)).map (fun x => [x]),
           .stacked (stackChannelsLast (l.map (knownImages tf
             (trimmedSeries data label_window_size use_returns)
             image_window_size num_bin padding_RP r1 r2 r3))),
           pySlice (((local_min_max data label_window_size).map Prod.snd).map onehot3)
             (labelSliceStart image_window_size use_returns) (labelSliceStop label_window_size),
           [(0, "Sell"), (1, "Buy"), (2, "Hold")]⟩ := by
  simp only [data_to_labelled_img, if_neg hW, selectColumns_get_dummies_ok hS hB hH]
  have h0 : ¬ selLen (.list l) = 0 := by
    simp only [selLen]
    omega
  have hcond : isListSel (.list l) = true ∧ 1 < selLen (.list l) := ⟨rfl, hlen⟩
  have hev : evalAll
      (imagesVarGASF tf (trimmedSeries data label_window_size use_returns) image_window_size r2 (.list l))
      (imagesVarGADF tf (trimmedSeries data label_window_size use_returns) image_window_size r3 (.list l))
      (imagesVarRP tf (trimmedSeries data label_window_size use_returns) image_window_size padding_RP r1 (.list l))
      (imagesVarMTF tf (trimmedSeries data label_window_size use_returns) image_window_size num_bin (.list l))
      (selNames (.list l)) =
      .ok (l.map (knownImages tf (trimmedSeries data label_window_size use_returns)
        image_window_size num_bin padding_RP r1 r2 r3)) := by
    refine evalAll_ok fun n hn => evalImagesVar_env_ok (hall n hn) ?_
    exact List.elem_eq_true_of_mem hn
  simp only [if_neg h0, if_pos hcond, hev]
  rfl

theorem data_to_labelled_img_singleton_typeError
    {local_min_max : List ℚ → Nat → List (ℚ × String)} {tf : Transforms} {data : List ℚ}
    {label_window_size image_window_size : Nat} {n : String}
    {num_bin padding_RP : Nat} {r1 r2 r3 : Bool} {use_returns : Bool}
    (hW : ¬ image_window_size < ceilHalf label_window_size)
    (hS : "Sell" ∈ (local_min_max data label_window_size).map Prod.snd)
    (hB : "Buy" ∈ (local_min_max data label_window_size).map Prod.snd)
    (hH : "Hold" ∈ (local_min_max data label_window_size).map Prod.snd) :
    data_to_labelled_img local_min_max tf data label_window_size image_window_size (.list [n])
        num_bin padding_RP r1 r2 r3 use_returns = .exn .typeError := by
  simp only [data_to_labelled_img, if_neg hW, selectColumns_get_dummies_ok hS hB hH]
  rfl

theorem data_to_labelled_img_str_unknown
    {local_min_max : List ℚ → Nat → List (ℚ × String)} {tf : Transforms} {data : List ℚ}
    {label_window_size image_window_size : Nat} {s : String}
    {num_bin padding_RP : Nat} {r1 r2 r3 : Bool} {use_returns : Bool}
    (hW : ¬ image_window_size < ceilHalf label_window_size)
    (hS : "Sell" ∈ (local_min_max data label_window_size).map Prod.snd)
    (hB : "Buy" ∈ (local_min_max data label_window_size).map Prod.snd)
    (hH : "Hold" ∈ (local_min_max data label_window_size).map Prod.snd)
    (hs : s ∉ knownStrats) (hs0 : ¬ s.length = 0) :
    data_to_labelled_img local_min_max tf data label_window_size image_window_size (.str s)
        num_bin padding_RP r1 r2 r3 use_returns =
      .exn (.nameError ("images_" ++ s)) := by
  simp only [data_to_labelled_img, if_neg hW, selectColumns_get_dummies_ok hS hB hH]
  have h0 : ¬ selLen (.str s) = 0 := hs0
  have hcond : ¬ (isListSel (.str s) = true ∧ 1 < selLen (.str s)) := by
    rintro ⟨hc, -⟩
    cases hc
  simp only [if_neg h0, if_neg hcond, evalImagesVar_unknown hs]

theorem data_to_labelled_img_list_unknown
    {local_min_max : List ℚ → Nat → List (ℚ × String)} {tf : Transforms} {data : List ℚ}
    {label_window_size image_window_size : Nat} {l : List String} {u : String}
    {num_bin padding_RP : Nat} {r1 r2 r3 : Bool} {use_returns : Bool}
    (hW : ¬ image_window_size < ceilHalf label_window_size)
    (hS : "Sell" ∈ (local_min_max data label_window_size).map Prod.snd)
    (hB : "Buy" ∈ (local_min_max data label_window_size).map Prod.snd)
    (hH : "Hold" ∈ (local_min_max data label_window_size).map Prod.snd)
    (hlen : 1 < l.length)
    (hu : l.find? (fun n => !(knownStrats.contains n)) = some u) :
    data_to_labelled_img local_min_max tf data label_window_size image_window_size (.list l)
        num_bin padding_RP r1 r2 r3 use_returns =
      .exn (.nameError ("images_" ++ u)) := by
  simp only [data_to_labelled_img, if_neg hW, selectColumns_get_dummies_ok hS hB hH]
  have h0 : ¬ selLen (.list l) = 0 := by
    simp only [selLen]
    omega
  have hcond : isListSel (.list l) = true ∧ 1 < selLen (.list l) := ⟨rfl, hlen⟩
  have hev : evalAll
      (imagesVarGASF tf (trimmedSeries data label_window_size use_returns) image_window_size r2 (.list l))
      (imagesVarGADF tf (trimmedSeries data label_window_size use_returns) image_window_size r3 (.list l))
      (imagesVarRP tf (trimmedSeries data label_window_size use_returns) image_window_size padding_RP r1 (.list l))
      (imagesVarMTF tf (trimmedSeries data label_window_size use_returns) image_window_size num_bin (.list l))
      (selNames (.list l)) = .error (.nameError ("images_" ++ u)) := by
    refine evalAll_first_error (fun n hn hkn => ?_) hu
    exact ⟨_, evalImagesVar_env_ok hkn (List.elem_eq_true_of_mem hn)⟩
  simp only [if_neg h0, if_pos hcond, hev]

theorem data_to_labelled_img_ok_inv
    {local_min_max : List ℚ → Nat → List (ℚ × String)} {tf : Transforms} {data : List ℚ}
    {label_window_size image_window_size : Nat} {sel : StratSel}
    {num_bin padding_RP : Nat} {r1 r2 r3 : Bool} {use_returns : Bool} {r : LabelledImgResult}
    (h : data_to_labelled_img local_min_max tf data label_window_size image_window_size sel
        num_bin padding_RP r1 r2 r3 use_returns = .ok r) :
    r.labelled_pd = local_min_max data label_window_size ∧
    r.price_at_image = (pySlice ((local_min_max data label_window_size).map Prod.fst)
        (labelSliceStart image_window_size use_returns)
        (labelSliceStop label_window_size)).map (fun x => [x]) ∧
    r.image_labels = pySlice (((local_min_max data label_window_size).map Prod.snd).map onehot3)
        (labelSliceStart image_window_size use_returns) (labelSliceStop label_window_size) ∧
    r.label_names = [(0, "Sell"), (1, "Buy"), (2, "Hold")] ∧
    ("Sell" ∈ (local_min_max data label_window_size).map Prod.snd ∧
     "Buy" ∈ (local_min_max data label_window_size).map Prod.snd ∧
     "Hold" ∈ (local_min_max data label_window_size).map Prod.snd) ∧
    ¬ image_window_size < ceilHalf label_window_size ∧
    ((∃ s, sel = .str s ∧ s ∈ knownStrats ∧
        r.images = .single (knownImages tf (trimmedSeries data label_window_size use_returns)
          image_window_size num_bin padding_RP r1 r2 r3 s)) ∨
     (∃ l, sel = .list l ∧ 1 < l.length ∧ (∀ n ∈ l, n ∈ knownStrats) ∧
        r.images = .stacked (stackChannelsLast (l.map (knownImages tf
          (trimmedSeries data label_window_size use_returns)
          image_window_size num_bin padding_RP r1 r2 r3))))) := by
  by_cases hW : image_window_size < ceilHalf label_window_size
  · simp only [data_to_labelled_img, if_pos hW] at h
    cases h
  · simp only [data_to_labelled_img, if_neg hW] at h
    split at h
    · cases h
    · rename_i dummies heq
      obtain ⟨⟨hS, hB, hH⟩, hd⟩ := selectColumns_get_dummies_inv heq
      subst hd
      split at h
      · cases h
      · rename_i h0
        split at h
        · rename_i hcond
          split at h
          · cases h
          · rename_i arrs heva
            cases h
            cases sel with
            | str s => exact Bool.noConfusion hcond.1
            | list l =>
              obtain ⟨hall, harrs⟩ := evalAll_env_ok_inv heva
              subst harrs
              exact ⟨rfl, rfl, rfl, rfl, ⟨hS, hB, hH⟩, hW,
                Or.inr ⟨l, rfl, hcond.2, hall, rfl⟩⟩
        · rename_i hcond
          split at h
          · cases h
          · rename_i arr heva2
            cases h
            cases sel with
            | str s =>
              have heva3 : evalImagesVar
                  (imagesVarGASF tf (trimmedSeries data label_window_size use_returns)
                    image_window_size r2 (.str s))
                  (imagesVarGADF tf (trimmedSeries data label_window_size use_returns)
                    image_window_size r3 (.str s))
                  (imagesVarRP tf (trimmedSeries data label_window_size use_returns)
                    image_window_size padding_RP r1 (.str s))
                  (imagesVarMTF tf (trimmedSeries data label_window_size use_returns)
                    image_window_size num_bin (.str s)) s = .ok arr := heva2
              obtain ⟨hks, ha⟩ := evalImagesVar_env_ok_inv heva3
              subst ha
              exact ⟨rfl, rfl, rfl, rfl, ⟨hS, hB, hH⟩, hW, Or.inl ⟨s, rfl, hks, rfl⟩⟩
            | list l =>
              have h' : (Except.error PyErr.typeError : Except PyErr (List Image)) =
                  Except.ok arr := heva2
              cases h'

theorem sliceIdx_ofNat (n a : Nat) : sliceIdx n (a : Int) = min a n := by
  unfold sliceIdx
  split <;> omega

theorem sliceIdx_neg (n b : Nat) (hb : 0 < b) : sliceIdx n (-(b : Int)) = n - b := by
  unfold sliceIdx
  split <;> omega

theorem sliceIdx_zero (n : Nat) : sliceIdx n 0 = 0 := by
  unfold sliceIdx
  split <;> omega

theorem sliceIdx_int_sub_one (n W : Nat) (hW : 1 ≤ W) :
    sliceIdx n ((W : Int) - 1) = min (W - 1) n := by
  unfold sliceIdx
  split <;> omega

theorem length_returnsOf (s : List ℚ) : (returnsOf s).length = s.length - 1 := by
  simp only [returnsOf, List.length_zipWith, List.length_drop, List.length_dropLast]
  omega

theorem length_stackChannelsLast (y : List (List (List ℚ))) (ys : List (List (List (List ℚ)))) :
    (stackChannelsLast (y :: ys)).length = y.length := by
  simp [stackChannelsLast]

theorem pySlice_eq_drop_take {α : Type} (l : List α) (a b : Nat) (hb : 0 < b) :
    pySlice l (a : Int) (-(b : Int)) = (l.drop a).take (l.length - b - a) := by
  unfold pySlice
  rw [sliceIdx_ofNat, sliceIdx_neg _ _ hb]
  by_cases ha : a ≤ l.length
  · rw [Nat.min_eq_left ha]
  · have h1 : min a l.length = l.length := Nat.min_eq_right (Nat.le_of_not_le ha)
    rw [h1, List.drop_length, List.drop_eq_nil_of_le (Nat.le_of_not_le ha)]
    simp

theorem range_map_getD {α : Type} (l : List α) (d : α) :
    (List.range l.length).map (fun i => l.getD i d) = l := by
  induction l with
  | nil => rfl
  | cons a as ih =>
    rw [List.length_cons, List.range_succ_eq_map, List.map_cons, List.map_map]
    refine congrArg₂ List.cons rfl ?_
    calc (List.range as.length).map ((fun i => (a :: as).getD i d) ∘ (· + 1))
        = (List.range as.length).map (fun i => as.getD i d) := by
          refine List.map_congr_left fun i _ => ?_
          rfl
      _ = as := ih

theorem getD_map_of_lt {α β : Type} (f : α → β) (l : List α) {i : Nat} (h : i < l.length)
    (d : α) (d' : β) : (l.map f).getD i d' = f (l.getD i d) := by
  have h' : i < (l.map f).length := by simpa using h
  rw [List.getD_eq_getElem _ _ h', List.getElem_map, List.getD_eq_getElem _ _ h]

theorem getD_map_eq {α β : Type} (f : α → β) (l : List α) (n : Nat) (d : α) :
    (l.map f).getD n (f d) = f (l.getD n d) := by
  by_cases h : n < l.length
  · exact getD_map_of_lt f l h d (f d)
  · have h1 : l.length ≤ n := Nat.le_of_not_lt h
    rw [List.getD_eq_default, List.getD_eq_default]
    · exact h1
    · simpa using h1

theorem reconstruct3 (a : List (List (List ℚ))) :
    (List.range a.length).map (fun n =>
      (List.range (a.getD n []).length).map (fun h =>
        (List.range ((a.getD n []).getD h []).length).map (fun w => cellAt a n h w))) = a := by
  have h1 : ∀ row : List ℚ, (List.range row.length).map (fun w => row.getD w 0) = row :=
    fun row => range_map_getD row 0
  have h2 : ∀ img : List (List ℚ),
      (List.range img.length).map (fun h =>
        (List.range ((img.getD h []).length)).map (fun w => (img.getD h []).getD w 0)) = img := by
    intro img
    have hh : ∀ h : Nat,
        (List.range ((img.getD h []).length)).map (fun w => (img.getD h []).getD w 0)
          = img.getD h [] := fun h => h1 _
    simp only [hh]
    exact range_map_getD img []
  have hn : ∀ n : Nat, (List.range ((a.getD n []).length)).map (fun h =>
      (List.range (((a.getD n []).getD h []).length)).map (fun w => cellAt a n h w))
      = a.getD n [] := by
    intro n
    unfold cellAt
    exact h2 (a.getD n [])
  simp only [hn]
  exact range_map_getD a []

theorem channelOf_stackChannelsLast {y : List (List (List ℚ))} {ys : List (List (List (List ℚ)))}
    (hsh : ∀ s ∈ y :: ys, shape3 s = shape3 y) {i : Nat} (hi : i < (y :: ys).length) :
    channelOf (stackChannelsLast (y :: ys)) i = (y :: ys).getD i [] := by
  have hxi_elem : (y :: ys).getD i [] = (y :: ys)[i] := List.getD_eq_getElem _ _ hi
  have hximem : (y :: ys).getD i [] ∈ (y :: ys) := by
    rw [hxi_elem]
    exact List.getElem_mem hi
  have hs : shape3 ((y :: ys).getD i []) = shape3 y := hsh _ hximem
  have e1 : ((y :: ys).getD i []).length = y.length := by
    have := congrArg List.length hs
    simpa [shape3] using this
  have hrow : ∀ n, (((y :: ys).getD i []).getD n []).map (fun r => r.length)
      = (y.getD n []).map (fun r => r.length) := by
    intro n
    have hxi' := getD_map_eq (fun img : List (List ℚ) => img.map (fun r => r.length))
      ((y :: ys).getD i []) n []
    have hy' := getD_map_eq (fun img : List (List ℚ) => img.map (fun r => r.length)) y n []
    simp only [List.map_nil] at hxi' hy'
    have hss : (shape3 ((y :: ys).getD i [])).getD n [] = (shape3 y).getD n [] := by rw [hs]
    unfold shape3 at hss
    rw [hxi', hy'] at hss
    exact hss
  have e2 : ∀ n, (((y :: ys).getD i []).getD n []).length = (y.getD n []).length := by
    intro n
    have := congrArg List.length (hrow n)
    simpa using this
  have e3 : ∀ n h, ((((y :: ys).getD i []).getD n []).getD h []).length
      = ((y.getD n []).getD h []).length := by
    intro n h
    have ha := getD_map_eq (fun r : List ℚ => r.length) (((y :: ys).getD i []).getD n []) h []
    have hb := getD_map_eq (fun r : List ℚ => r.length) (y.getD n []) h []
    simp only [List.length_nil] at ha hb
    have hc := congrArg (fun t => t.getD h 0) (hrow n)
    simp only at hc
    rw [ha, hb] at hc
    exact hc
  have hcell : ∀ n h w, (((y :: ys).map (fun s => cellAt s n h w)).getD i 0)
      = cellAt ((y :: ys).getD i []) n h w := by
    intro n h w
    exact getD_map_of_lt (fun s => cellAt s n h w) (y :: ys) hi [] 0
  have hmain : channelOf (stackChannelsLast (y :: ys)) i =
      (List.range y.length).map (fun n =>
        (List.range (y.getD n []).length).map (fun h =>
          (List.range ((y.getD n []).getD h []).length).map (fun w =>
            cellAt ((y :: ys).getD i []) n h w))) := by
    simp only [stackChannelsLast, channelOf, List.map_map, Function.comp_def, hcell]
  rw [hmain, ← e1]
  simp only [← e2, ← e3]
  exact reconstruct3 ((y :: ys).getD i [])

/-- Labeler instance used in concrete witnesses: pairs each series value
with a fixed label stream that starts with all three categories. -/
def witLabeler : List ℚ → Nat → List (ℚ × String) :=
  fun s _ => s.zip (["Sell", "Buy", "Hold"] ++ List.replicate s.length "Hold")

/-- Transform instance used in concrete witnesses: constant one-pixel
image arrays. -/
def witTransforms : Transforms :=
  ⟨fun _ _ _ => [[[1]]], fun _ _ _ => [[[2]]], fun _ _ _ _ => [[[3]]], fun _ _ _ => [[[4]]]⟩

/-- C3: when `image_window_size < np.ceil(label_window_size/2)` the call
stops at the guard and reports the invalid configuration with the bare
empty-tuple return, which is distinguishable from every normal 5-tuple
result; no labelled frame, prices, labels or images are produced. -/
theorem claim_C3 (local_min_max : List ℚ → Nat → List (ℚ × String)) (tf : Transforms)
    (data : List ℚ) (label_window_size image_window_size : Nat) (sel : StratSel)
    (num_bin padding_RP : Nat) (r1 r2 r3 ur : Bool)
    (h : image_window_size < ceilHalf label_window_size) :
    data_to_labelled_img local_min_max tf data label_window_size image_window_size sel
        num_bin padding_RP r1 r2 r3 ur = .emptyReturn ∧
    ∀ res, data_to_labelled_img local_min_max tf data label_window_size image_window_size sel
        num_bin padding_RP r1 r2 r3 ur ≠ .ok res := by
  have he : data_to_labelled_img local_min_max tf data label_window_size image_window_size sel
      num_bin padding_RP r1 r2 r3 ur = .emptyReturn := by
    simp only [data_to_labelled_img, if_pos h]
  refine ⟨he, fun res hres => ?_⟩
  rw [he] at hres
  cases hres

/-- Witness for C3 at L = 5, W = 2. -/
theorem claim_C3_witness :
    2 < ceilHalf 5 ∧
      data_to_labelled_img witLabeler witTransforms [1, 2, 3] 5 2 (.str "RP")
        5 0 false false false false = .emptyReturn :=
  ⟨by decide,
    (claim_C3 witLabeler witTransforms [1, 2, 3] 5 2 (.str "RP") 5 0 false false false false
      (by decide)).1⟩

/-- C4 (amended): whenever the call returns its 5-tuple — which requires
all three categories Sell, Buy, Hold to occur among the produced labels —
the one-hot columns are exactly ["Sell", "Buy", "Hold"] in that order and
the label-name map is {0: Sell, 1: Buy, 2: Hold}.  When a category is
absent the selection `dummies[['Sell', 'Buy', 'Hold']]` raises `KeyError`
instead, so no map is returned (see the counterexample). -/
theorem claim_C4 (local_min_max : List ℚ → Nat → List (ℚ × String)) (tf : Transforms)
    (data : List ℚ) (label_window_size image_window_size : Nat) (sel : StratSel)
    (num_bin padding_RP : Nat) (r1 r2 r3 ur : Bool) (r : LabelledImgResult)
    (h : data_to_labelled_img local_min_max tf data label_window_size image_window_size sel
        num_bin padding_RP r1 r2 r3 ur = .ok r) :
    r.label_names = [(0, "Sell"), (1, "Buy"), (2, "Hold")] ∧
    selectColumns (get_dummies ((local_min_max data label_window_size).map Prod.snd))
        ["Sell", "Buy", "Hold"]
      = .ok ⟨["Sell", "Buy", "Hold"],
             ((local_min_max data label_window_size).map Prod.snd).map onehot3⟩ := by
  obtain ⟨-, -, -, hn, ⟨hS, hB, hH⟩, -, -⟩ := data_to_labelled_img_ok_inv h
  exact ⟨hn, selectColumns_get_dummies_ok hS hB hH⟩

/-- Witness for C4 on a concrete successful call. -/
theorem claim_C4_witness :
    resultNames (data_to_labelled_img witLabeler witTransforms [1, 2, 3, 4] 3 2 (.str "RP")
        5 0 false false false false) = some [(0, "Sell"), (1, "Buy"), (2, "Hold")] := by
  have h := claim_C4 witLabeler witTransforms [1, 2, 3, 4] 3 2 (.str "RP") 5 0 false false false
    false _ (by decide : data_to_labelled_img witLabeler witTransforms [1, 2, 3, 4] 3 2
      (.str "RP") 5 0 false false false false = .ok
        ⟨witLabeler [1, 2, 3, 4] 3,
         (pySlice ((witLabeler [1, 2, 3, 4] 3).map Prod.fst) (labelSliceStart 2 false)
           (labelSliceStop 3)).map (fun x => [x]),
         .single (knownImages witTransforms (trimmedSeries [1, 2, 3, 4] 3 false) 2 5 0
           false false false "RP"),
         pySlice (((witLabeler [1, 2, 3, 4] 3).map Prod.snd).map onehot3)
           (labelSliceStart 2 false) (labelSliceStop 3),
         [(0, "Sell"), (1, "Buy"), (2, "Hold")]⟩)
  rw [show resultNames (data_to_labelled_img witLabeler witTransforms [1, 2, 3, 4] 3 2
      (.str "RP") 5 0 false false false false) = some [(0, "Sell"), (1, "Buy"), (2, "Hold")] from
    by decide]

/-- Counterexample for C4: a labeling in which only Hold occurs makes the
column selection raise `KeyError ['Sell', 'Buy']`; no label-name map (and
no result at all) is returned, contradicting the claim for that input. -/
theorem claim_C4_counterexample :
    data_to_labelled_img (fun s _ => s.map (fun v => (v, "Hold"))) witTransforms
        [1, 2, 3, 4] 3 2 (.str "RP") 5 0 false false false false
      = .exn (.keyError ["Sell", "Buy"]) ∧
    resultNames (data_to_labelled_img (fun s _ => s.map (fun v => (v, "Hold"))) witTransforms
        [1, 2, 3, 4] 3 2 (.str "RP") 5 0 false false false false) = none := by
  constructor
  · decide
  · decide

/-- C5: for a fixed labeler, series, L and W, the slice start used for the
label and price arrays under the returns basis is exactly one more than the
start used under the price basis, and both bases use the same slice stop;
the returned arrays of any two successful calls are these two slices. -/
theorem claim_C5 (local_min_max : List ℚ → Nat → List (ℚ × String)) (tf : Transforms)
    (data : List ℚ) (label_window_size image_window_size : Nat) (sel : StratSel)
    (num_bin padding_RP : Nat) (r1 r2 r3 : Bool) (r_p r_r : LabelledImgResult)
    (hp : data_to_labelled_img local_min_max tf data label_window_size image_window_size sel
        num_bin padding_RP r1 r2 r3 false = .ok r_p)
    (hr : data_to_labelled_img local_min_max tf data label_window_size image_window_size sel
        num_bin padding_RP r1 r2 r3 true = .ok r_r) :
    labelSliceStart image_window_size true = labelSliceStart image_window_size false + 1 ∧
    r_r.image_labels = pySlice (((local_min_max data label_window_size).map Prod.snd).map onehot3)
        (labelSliceStart image_window_size false + 1) (labelSliceStop label_window_size) ∧
    r_p.image_labels = pySlice (((local_min_max data label_window_size).map Prod.snd).map onehot3)
        (labelSliceStart image_window_size false) (labelSliceStop label_window_size) ∧
    r_r.price_at_image = (pySlice ((local_min_max data label_window_size).map Prod.fst)
        (labelSliceStart image_window_size false + 1) (labelSliceStop label_window_size)).map
          (fun x => [x]) ∧
    r_p.price_at_image = (pySlice ((local_min_max data label_window_size).map Prod.fst)
        (labelSliceStart image_window_size false) (labelSliceStop label_window_size)).map
          (fun x => [x]) := by
  have h1 : labelSliceStart image_window_size true = labelSliceStart image_window_size false + 1 := by
    show (image_window_size : Int) = (image_window_size : Int) - 1 + 1
    omega
  obtain ⟨-, hpp, hpl, -, -, -, -⟩ := data_to_labelled_img_ok_inv hp
  obtain ⟨-, hrp, hrl, -, -, -, -⟩ := data_to_labelled_img_ok_inv hr
  rw [h1] at hrl hrp
  exact ⟨h1, hrl, hpl, hrp, hpp⟩

/-- Witness for C5: the one-index shift of the slice start at W = 2. -/
theorem claim_C5_witness :
    labelSliceStart 2 true = labelSliceStart 2 false + 1 :=
  (claim_C5 witLabeler witTransforms [1, 2, 3, 4] 3 2 (.str "RP") 5 0 false false false
    (match data_to_labelled_img witLabeler witTransforms [1, 2, 3, 4] 3 2 (.str "RP")
        5 0 false false false false with
      | .ok r => r
      | _ => ⟨[], [], .single [], [], []⟩)
    (match data_to_labelled_img witLabeler witTransforms [1, 2, 3, 4] 3 2 (.str "RP")
        5 0 false false false true with
      | .ok r => r
      | _ => ⟨[], [], .single [], [], []⟩)
    (by decide) (by decide)).1

/-- C7 (amended): a label value outside {Sell, Buy, Hold} does not make the
call fail.  As long as the three canonical categories also occur, the
column selection succeeds and the call returns normally; the out-of-set
label is silently discarded — its row one-hot-encodes to [0, 0, 0] in the
(Sell, Buy, Hold) columns. -/
theorem claim_C7 (local_min_max : List ℚ → Nat → List (ℚ × String)) (tf : Transforms)
    (data : List ℚ) (label_window_size image_window_size : Nat) (s : String) (x : String)
    (num_bin padding_RP : Nat) (r1 r2 r3 ur : Bool)
    (hW : ¬ image_window_size < ceilHalf label_window_size)
    (hS : "Sell" ∈ (local_min_max data label_window_size).map Prod.snd)
    (hB : "Buy" ∈ (local_min_max data label_window_size).map Prod.snd)
    (hH : "Hold" ∈ (local_min_max data label_window_size).map Prod.snd)
    (hs : s ∈ knownStrats)
    (hx : x ∈ (local_min_max data label_window_size).map Prod.snd)
    (hxout : x ∉ (["Sell", "Buy", "Hold"] : List String)) :
    (∃ r, data_to_labelled_img local_min_max tf data label_window_size image_window_size
        (.str s) num_bin padding_RP r1 r2 r3 ur = .ok r) ∧
    onehot3 x = [0, 0, 0] ∧
    selectColumns (get_dummies ((local_min_max data label_window_size).map Prod.snd))
        ["Sell", "Buy", "Hold"]
      = .ok ⟨["Sell", "Buy", "Hold"],
             ((local_min_max data label_window_size).map Prod.snd).map onehot3⟩ := by
  refine ⟨⟨_, data_to_labelled_img_str_ok hW hS hB hH hs⟩, ?_,
    selectColumns_get_dummies_ok hS hB hH⟩
  simp only [List.mem_cons, List.not_mem_nil, or_false, not_or] at hxout
  obtain ⟨h1, h2, h3⟩ := hxout
  simp [onehot3, h1, h2, h3]

/-- Witness for C7 with the out-of-set label "Foo". -/
theorem claim_C7_witness :
    onehot3 "Foo" = [0, 0, 0] :=
  (claim_C7 (fun s _ => s.zip ["Sell", "Buy", "Hold", "Foo"]) witTransforms [1, 2, 3, 4]
    3 2 "RP" "Foo" 5 0 false false false false
    (by decide) (by decide) (by decide) (by decide) (by decide) (by decide) (by decide)).2.1

/-- Counterexample for C7: with labels (Sell, Buy, Hold, Foo) the call does
not fail — it returns a normal 5-tuple even though "Foo" is outside the
fixed category set. -/
theorem claim_C7_counterexample :
    isOkResult (data_to_labelled_img (fun s _ => s.zip ["Sell", "Buy", "Hold", "Foo"])
        witTransforms [1, 2, 3, 4] 3 2 (.str "RP") 5 0 false false false false) = true ∧
    "Foo" ∈ ((fun (s : List ℚ) (_ : Nat) => s.zip ["Sell", "Buy", "Hold", "Foo"])
        [1, 2, 3, 4] 3).map Prod.snd ∧
    "Foo" ∉ (["Sell", "Buy", "Hold"] : List String) := by
  refine ⟨by decide, by decide, by decide⟩

/-- C10: a one-element list selection (even one naming a recognised
strategy) makes the single-strategy branch evaluate
`"images_" + image_trf_strat` on a list, so the call raises `TypeError`
and never returns that strategy's image array. -/
theorem claim_C10 (local_min_max : List ℚ → Nat → List (ℚ × String)) (tf : Transforms)
    (data : List ℚ) (label_window_size image_window_size : Nat) (n : String)
    (num_bin padding_RP : Nat) (r1 r2 r3 ur : Bool)
    (hW : ¬ image_window_size < ceilHalf label_window_size)
    (hS : "Sell" ∈ (local_min_max data label_window_size).map Prod.snd)
    (hB : "Buy" ∈ (local_min_max data label_window_size).map Prod.snd)
    (hH : "Hold" ∈ (local_min_max data label_window_size).map Prod.snd)
    (hn : n ∈ knownStrats) :
    data_to_labelled_img local_min_max tf data label_window_size image_window_size
        (.list [n]) num_bin padding_RP r1 r2 r3 ur = .exn .typeError ∧
    ∀ res, data_to_labelled_img local_min_max tf data label_window_size image_window_size
        (.list [n]) num_bin padding_RP r1 r2 r3 ur ≠ .ok res := by
  have he : data_to_labelled_img local_min_max tf data label_window_size image_window_size
      (.list [n]) num_bin padding_RP r1 r2 r3 ur = .exn .typeError :=
    data_to_labelled_img_singleton_typeError hW hS hB hH
  refine ⟨he, fun res hres => ?_⟩
  rw [he] at hres
  cases hres

/-- Witness for C10 with the recognised one-element selection ['RP']. -/
theorem claim_C10_witness :
    data_to_labelled_img witLabeler witTransforms [1, 2, 3, 4] 3 2 (.list ["RP"])
        5 0 false false false false = .exn .typeError :=
  (claim_C10 witLabeler witTransforms [1, 2, 3, 4] 3 2 "RP" 5 0 false false false false
    (by decide) (by decide) (by decide) (by decide) (by decide)).1

/-- Payload of a successful call (defaulting on non-results), used to state
concrete witnesses without binders. -/
def okPayload : PyResult LabelledImgResult → LabelledImgResult
  | .ok r => r
  | _ => ⟨[], [], .single [], [], []⟩

/-- C1 (amended): for every odd label window L with 3 ≤ L ≤ N, every
W ≥ ceil(L/2) and every labeler respecting the one-row-per-timestamp
contract, a successful price-basis call returns exactly the slice
[W-1, N - L/2) of the one-hot rows and of the series values (the latter
reshaped to a column).  For L = 1 the stop index `-int(L/2)` is `-0 = 0`,
which Python reads as an empty slice rather than "to the end", so the
original claim fails there; see the counterexample. -/
theorem claim_C1 (local_min_max : List ℚ → Nat → List (ℚ × String)) (tf : Transforms)
    (data : List ℚ) (label_window_size image_window_size : Nat) (sel : StratSel)
    (num_bin padding_RP : Nat) (r1 r2 r3 : Bool) (r : LabelledImgResult)
    (hodd : label_window_size % 2 = 1) (hL3 : 3 ≤ label_window_size)
    (hLN : label_window_size ≤ data.length)
    (hW : ceilHalf label_window_size ≤ image_window_size)
    (hlab : (local_min_max data label_window_size).length = data.length)
    (h : data_to_labelled_img local_min_max tf data label_window_size image_window_size sel
        num_bin padding_RP r1 r2 r3 false = .ok r) :
    r.image_labels = ((((local_min_max data label_window_size).map Prod.snd).map onehot3).drop
        (image_window_size - 1)).take
        (data.length - label_window_size / 2 - (image_window_size - 1)) ∧
    r.price_at_image = ((((local_min_max data label_window_size).map Prod.fst).drop
        (image_window_size - 1)).take
        (data.length - label_window_size / 2 - (image_window_size - 1))).map (fun x => [x]) := by
  obtain ⟨-, hp, hl, -, -, -, -⟩ := data_to_labelled_img_ok_inv h
  have hstart : labelSliceStart image_window_size false
      = ((image_window_size - 1 : Nat) : Int) := by
    have hW1 : 1 ≤ image_window_size := by
      have h2 : 2 ≤ ceilHalf label_window_size := by
        unfold ceilHalf
        omega
      omega
    show (image_window_size : Int) - 1 = ((image_window_size - 1 : Nat) : Int)
    omega
  have hstop : labelSliceStop label_window_size
      = -((label_window_size / 2 : Nat) : Int) := rfl
  have hb : 0 < label_window_size / 2 := by omega
  rw [hl, hp, hstart, hstop, pySlice_eq_drop_take _ _ _ hb, pySlice_eq_drop_take _ _ _ hb]
  constructor
  · simp only [List.length_map, hlab]
  · simp only [List.length_map, hlab]

/-- Witness for C1 at N = 4, L = 3, W = 2 on the price basis. -/
theorem claim_C1_witness :
    (okPayload (data_to_labelled_img witLabeler witTransforms [1, 2, 3, 4] 3 2 (.str "RP")
        5 0 false false false false)).image_labels
      = ((((witLabeler [1, 2, 3, 4] 3).map Prod.snd).map onehot3).drop (2 - 1)).take
          (4 - 3 / 2 - (2 - 1)) :=
  (claim_C1 witLabeler witTransforms [1, 2, 3, 4] 3 2 (.str "RP") 5 0 false false false
    (okPayload (data_to_labelled_img witLabeler witTransforms [1, 2, 3, 4] 3 2 (.str "RP")
      5 0 false false false false))
    (by decide) (by decide) (by decide) (by decide) (by decide) (by decide)).1

/-- Counterexample for C1: at L = 1 (odd, with W = 1 ≥ ceil(1/2) = 1 and
N = 4 ≥ L) the returned one-hot label array is empty, not the claimed
slice from W - 1 = 0 to N - floor(1/2) = 4. -/
theorem claim_C1_counterexample :
    resultLabels (data_to_labelled_img witLabeler witTransforms [1, 2, 3, 4] 1 1 (.str "RP")
        5 0 false false false false) = some [] ∧
    resultLabels (data_to_labelled_img witLabeler witTransforms [1, 2, 3, 4] 1 1 (.str "RP")
        5 0 false false false false)
      ≠ some (((((witLabeler [1, 2, 3, 4] 1).map Prod.snd).map onehot3).drop (1 - 1)).take
          (4 - 1 / 2 - (1 - 1))) :=
  ⟨by decide, by decide⟩

/-- A 40-sample series used for the C8 example. -/
def series40 : List ℚ := (List.range 40).map (fun i => (i : ℚ))

/-- C8 (amended): for any 40-sample series with L = 3, W = 14, strategies
[RP, GASF, MTF], bin count 4, RP padding 1, price basis, a successful call
gives price_at_image and image_labels a common first dimension
40 - 13 - 1 = 26.  Because price_at_image is reshaped to a column by
`.reshape((-1, 1))`, its full shape is (26, 1), which differs from
`image_labels.shape[:1] = (26,)`; the claimed shape equality fails (see
the counterexample) while the common-first-dimension part holds. -/
theorem claim_C8 (local_min_max : List ℚ → Nat → List (ℚ × String)) (tf : Transforms)
    (data : List ℚ) (r : LabelledImgResult)
    (hN : data.length = 40)
    (hlab : (local_min_max data 3).length = data.length)
    (h : data_to_labelled_img local_min_max tf data 3 14 (.list ["RP", "GASF", "MTF"])
        4 1 false false false false = .ok r) :
    r.price_at_image.length = 26 ∧ r.image_labels.length = 26 ∧
      shape2 r.price_at_image = [26, 1] := by
  obtain ⟨-, hp, hl, -, -, -, -⟩ := data_to_labelled_img_ok_inv h
  have hM : (((local_min_max data 3).map Prod.snd).map onehot3).length = 40 := by
    simp [List.length_map, hlab, hN]
  have hMf : ((local_min_max data 3).map Prod.fst).length = 40 := by
    simp [List.length_map, hlab, hN]
  have hlen_s : (pySlice ((local_min_max data 3).map Prod.fst) (labelSliceStart 14 false)
      (labelSliceStop 3)).length = 26 := by
    rw [length_pySlice, hMf]
    decide
  have hll : r.image_labels.length = 26 := by
    rw [hl, length_pySlice, hM]
    decide
  have hpl : r.price_at_image.length = 26 := by
    rw [hp, List.length_map, hlen_s]
  refine ⟨hpl, hll, ?_⟩
  rw [hp]
  unfold shape2
  rw [List.length_map, hlen_s]
  rcases hslice : pySlice ((local_min_max data 3).map Prod.fst) (labelSliceStart 14 false)
      (labelSliceStop 3) with - | ⟨a, rest⟩
  · rw [hslice] at hlen_s
    simp at hlen_s
  · rfl

/-- Witness for C8 on a concrete 40-sample series. -/
theorem claim_C8_witness :
    (okPayload (data_to_labelled_img witLabeler witTransforms series40 3 14
        (.list ["RP", "GASF", "MTF"]) 4 1 false false false false)).price_at_image.length = 26 ∧
    (okPayload (data_to_labelled_img witLabeler witTransforms series40 3 14
        (.list ["RP", "GASF", "MTF"]) 4 1 false false false false)).image_labels.length = 26 := by
  have h := claim_C8 witLabeler witTransforms series40
    (okPayload (data_to_labelled_img witLabeler witTransforms series40 3 14
      (.list ["RP", "GASF", "MTF"]) 4 1 false false false false))
    (by decide) (by decide) (by decide)
  exact ⟨h.1, h.2.1⟩

/-- Counterexample for C8: on a concrete run the full price_at_image shape
is (26, 1), not image_labels.shape[:1] = (26,), so the claimed shape
equality is false even though both first dimensions are 26. -/
theorem claim_C8_counterexample :
    isOkResult (data_to_labelled_img witLabeler witTransforms series40 3 14
        (.list ["RP", "GASF", "MTF"]) 4 1 false false false false) = true ∧
    shape2 (okPayload (data_to_labelled_img witLabeler witTransforms series40 3 14
        (.list ["RP", "GASF", "MTF"]) 4 1 false false false false)).price_at_image = [26, 1] ∧
    [(okPayload (data_to_labelled_img witLabeler witTransforms series40 3 14
        (.list ["RP", "GASF", "MTF"]) 4 1 false false false false)).image_labels.length] = [26] ∧
    shape2 (okPayload (data_to_labelled_img witLabeler witTransforms series40 3 14
        (.list ["RP", "GASF", "MTF"]) 4 1 false false false false)).price_at_image
      ≠ [(okPayload (data_to_labelled_img witLabeler witTransforms series40 3 14
        (.list ["RP", "GASF", "MTF"]) 4 1 false false false false)).image_labels.length] :=
  ⟨by decide, by decide, by decide, by decide⟩

/-- C9 (amended, restricted to the identifier fragment of `eval`): when
every requested name consists of identifier characters — so that
`eval("images_" + name)` is exactly a variable lookup — a selection
containing a name outside {GASF, GADF, RP, MTF} never returns a result
tuple.  There a non-empty string selection raises `NameError` naming
`images_<name>`, and a list of two or more names raises `NameError`
naming `images_<first unknown>` (once the earlier stages succeed); a
one-element list instead fails with the TypeError of the single-strategy
branch, which does not identify the unknown name — one point where the
original claim fails (see the counterexample).  Outside the identifier
fragment `eval` parses further, so an unknown name such as "RP " (trailing
whitespace) evaluates the defined `images_RP` and the call returns
normally, and non-identifier text raises `SyntaxError`; that behaviour is
outside this embedding and the theorem does not speak about it. -/
theorem claim_C9 (local_min_max : List ℚ → Nat → List (ℚ × String)) (tf : Transforms)
    (data : List ℚ) (label_window_size image_window_size : Nat) (sel : StratSel)
    (num_bin padding_RP : Nat) (r1 r2 r3 ur : Bool) (u : String)
    (hu : u ∈ selRequested sel) (hku : u ∉ knownStrats)
    (hident : ∀ n ∈ selRequested sel, pyIdentSuffix n = true) :
    (∀ res, data_to_labelled_img local_min_max tf data label_window_size image_window_size sel
        num_bin padding_RP r1 r2 r3 ur ≠ .ok res) ∧
    (sel = .str u → ¬ u.length = 0 →
      ¬ image_window_size < ceilHalf label_window_size →
      "Sell" ∈ (local_min_max data label_window_size).map Prod.snd →
      "Buy" ∈ (local_min_max data label_window_size).map Prod.snd →
      "Hold" ∈ (local_min_max data label_window_size).map Prod.snd →
      data_to_labelled_img local_min_max tf data label_window_size image_window_size sel
        num_bin padding_RP r1 r2 r3 ur = .exn (.nameError ("images_" ++ u))) ∧
    (∀ l v, sel = .list l → 1 < l.length →
      l.find? (fun n => !(knownStrats.contains n)) = some v →
      ¬ image_window_size < ceilHalf label_window_size →
      "Sell" ∈ (local_min_max data label_window_size).map Prod.snd →
      "Buy" ∈ (local_min_max data label_window_size).map Prod.snd →
      "Hold" ∈ (local_min_max data label_window_size).map Prod.snd →
      data_to_labelled_img local_min_max tf data label_window_size image_window_size sel
        num_bin padding_RP r1 r2 r3 ur = .exn (.nameError ("images_" ++ v))) := by
  refine ⟨?_, ?_, ?_⟩
  · intro res hres
    obtain ⟨-, -, -, -, -, -, hdisj⟩ := data_to_labelled_img_ok_inv hres
    rcases hdisj with ⟨s, hseq, hks, -⟩ | ⟨l, hseq, -, hall, -⟩
    · subst hseq
      rw [show selRequested (.str s) = [s] from rfl, List.mem_singleton] at hu
      exact hku (hu ▸ hks)
    · subst hseq
      exact hku (hall u hu)
  · rintro rfl h0 hW hS hB hH
    exact data_to_labelled_img_str_unknown hW hS hB hH hku h0
  · rintro l v rfl hlen hv hW hS hB hH
    exact data_to_labelled_img_list_unknown hW hS hB hH hlen hv

/-- Witness for C9: the unknown identifier selection "FOO" raises a
NameError naming images_FOO. -/
theorem claim_C9_witness :
    data_to_labelled_img witLabeler witTransforms [1, 2, 3, 4] 3 2 (.str "FOO")
        5 0 false false false false = .exn (.nameError ("images_" ++ "FOO")) :=
  (claim_C9 witLabeler witTransforms [1, 2, 3, 4] 3 2 (.str "FOO") 5 0 false false false false
    "FOO" (by decide) (by decide) (by decide)).2.1 rfl (by decide) (by decide) (by decide)
    (by decide) (by decide)

/-- Counterexample for C9: the selection ['FOO'] contains the unknown name
FOO, but the call fails with the list-concatenation TypeError, an error
that does not identify the unknown strategy name. -/
theorem claim_C9_counterexample :
    data_to_labelled_img witLabeler witTransforms [1, 2, 3, 4] 3 2 (.list ["FOO"])
        5 0 false false false false = .exn .typeError ∧
    PyErr.typeError ≠ PyErr.nameError ("images_" ++ "FOO") :=
  ⟨by decide, by decide⟩

/-- C6: a single-name selection returns that strategy's raw 3-D array with
no trailing channel axis, while a k ≥ 2 list selection returns the
channels-last stack of the requested strategies in requested order; when
the per-strategy arrays have equal shapes, channel i of the stack is
exactly the i-th requested strategy's array, for every image index. -/
theorem claim_C6 (local_min_max : List ℚ → Nat → List (ℚ × String)) (tf : Transforms)
    (data : List ℚ) (label_window_size image_window_size : Nat)
    (num_bin padding_RP : Nat) (r1 r2 r3 ur : Bool) :
    (∀ s r, data_to_labelled_img local_min_max tf data label_window_size image_window_size
        (.str s) num_bin padding_RP r1 r2 r3 ur = .ok r →
      r.images = .single (knownImages tf (trimmedSeries data label_window_size ur)
        image_window_size num_bin padding_RP r1 r2 r3 s)) ∧
    (∀ l r, 1 < l.length →
      data_to_labelled_img local_min_max tf data label_window_size image_window_size
        (.list l) num_bin padding_RP r1 r2 r3 ur = .ok r →
      r.images = .stacked (stackChannelsLast (l.map (knownImages tf
        (trimmedSeries data label_window_size ur)
        image_window_size num_bin padding_RP r1 r2 r3))) ∧
      ((∀ arr ∈ l.map (knownImages tf (trimmedSeries data label_window_size ur)
          image_window_size num_bin padding_RP r1 r2 r3),
          shape3 arr = shape3 (knownImages tf (trimmedSeries data label_window_size ur)
            image_window_size num_bin padding_RP r1 r2 r3 (l.headD ""))) →
        ∀ i, i < l.length →
          channelOf (stackChannelsLast (l.map (knownImages tf
            (trimmedSeries data label_window_size ur)
            image_window_size num_bin padding_RP r1 r2 r3))) i
            = knownImages tf (trimmedSeries data label_window_size ur)
              image_window_size num_bin padding_RP r1 r2 r3 (l.getD i ""))) := by
  constructor
  · intro s r h
    obtain ⟨-, -, -, -, -, -, hdisj⟩ := data_to_labelled_img_ok_inv h
    rcases hdisj with ⟨s', hseq, -, him⟩ | ⟨l', hseq, -, -, -⟩
    · cases hseq
      exact him
    · cases hseq
  · intro l r hlen h
    obtain ⟨-, -, -, -, -, -, hdisj⟩ := data_to_labelled_img_ok_inv h
    rcases hdisj with ⟨s', hseq, -, -⟩ | ⟨l', hseq, -, -, him⟩
    · cases hseq
    · cases hseq
      refine ⟨him, ?_⟩
      intro hsh i hi
      cases l with
      | nil => simp at hlen
      | cons n0 rest =>
        rw [List.map_cons] at hsh ⊢
        have hsh' : ∀ arr ∈ knownImages tf (trimmedSeries data label_window_size ur)
            image_window_size num_bin padding_RP r1 r2 r3 n0 ::
              rest.map (knownImages tf (trimmedSeries data label_window_size ur)
                image_window_size num_bin padding_RP r1 r2 r3),
            shape3 arr = shape3 (knownImages tf (trimmedSeries data label_window_size ur)
              image_window_size num_bin padding_RP r1 r2 r3 n0) := by
          intro arr ha
          simpa using hsh arr ha
        have hi' : i < (knownImages tf (trimmedSeries data label_window_size ur)
            image_window_size num_bin padding_RP r1 r2 r3 n0 ::
              rest.map (knownImages tf (trimmedSeries data label_window_size ur)
                image_window_size num_bin padding_RP r1 r2 r3)).length := by
          simp only [List.length_cons, List.length_map]
          simpa using hi
        rw [channelOf_stackChannelsLast hsh' hi', ← List.map_cons]
        exact getD_map_of_lt (knownImages tf (trimmedSeries data label_window_size ur)
          image_window_size num_bin padding_RP r1 r2 r3) (n0 :: rest) hi "" []

/-- Witness for C6: a concrete three-strategy call stacks channels last,
and channel 0 recovers the RP array; a concrete single-name call returns
the bare RP array. -/
theorem claim_C6_witness :
    (okPayload (data_to_labelled_img witLabeler witTransforms [1, 2, 3, 4] 3 2 (.str "RP")
        5 0 false false false false)).images
      = .single (knownImages witTransforms (trimmedSeries [1, 2, 3, 4] 3 false)
          2 5 0 false false false "RP") ∧
    channelOf (stackChannelsLast ((["RP", "GASF", "MTF"] : List String).map
        (knownImages witTransforms (trimmedSeries [1, 2, 3, 4] 3 false) 2 5 0
          false false false))) 0
      = knownImages witTransforms (trimmedSeries [1, 2, 3, 4] 3 false) 2 5 0
          false false false (["RP", "GASF", "MTF"].getD 0 "") := by
  have hc := claim_C6 witLabeler witTransforms [1, 2, 3, 4] 3 2 5 0 false false false false
  refine ⟨hc.1 "RP" (okPayload (data_to_labelled_img witLabeler witTransforms [1, 2, 3, 4] 3 2
    (.str "RP") 5 0 false false false false)) (by decide), ?_⟩
  exact ((hc.2 ["RP", "GASF", "MTF"]
    (okPayload (data_to_labelled_img witLabeler witTransforms [1, 2, 3, 4] 3 2
      (.list ["RP", "GASF", "MTF"]) 5 0 false false false false))
    (by decide) (by decide)).2 (by decide) 0 (by decide))

/-- C2: for every valid configuration (odd L, W ≥ ceil(L/2), non-empty
known strategy selection), every labeler meeting the one-row-per-timestamp
contract, and transforms that return exactly (trimmed series length - W + 1)
images for this call's arguments, every successful call satisfies
len(images) = len(image_labels) = len(price_at_image), on both the price
and the returns basis. -/
theorem claim_C2 (local_min_max : List ℚ → Nat → List (ℚ × String)) (tf : Transforms)
    (data : List ℚ) (label_window_size image_window_size : Nat) (sel : StratSel)
    (num_bin padding_RP : Nat) (r1 r2 r3 ur : Bool) (r : LabelledImgResult)
    (hodd : label_window_size % 2 = 1)
    (hW : ceilHalf label_window_size ≤ image_window_size)
    (hlab : (local_min_max data label_window_size).length = data.length)
    (hsel : selRequested sel ≠ [] ∧ ∀ n ∈ selRequested sel, n ∈ knownStrats)
    (hG : ((tf.GASF (trimmedSeries data label_window_size ur) image_window_size r2).length : Int)
        = ((trimmedSeries data label_window_size ur).length : Int) - image_window_size + 1)
    (hD : ((tf.GADF (trimmedSeries data label_window_size ur) image_window_size r3).length : Int)
        = ((trimmedSeries data label_window_size ur).length : Int) - image_window_size + 1)
    (hR : ((tf.RP (trimmedSeries data label_window_size ur) image_window_size
          padding_RP r1).length : Int)
        = ((trimmedSeries data label_window_size ur).length : Int) - image_window_size + 1)
    (hM : ((tf.MTF (trimmedSeries data label_window_size ur) image_window_size
          num_bin).length : Int)
        = ((trimmedSeries data label_window_size ur).length : Int) - image_window_size + 1)
    (h : data_to_labelled_img local_min_max tf data label_window_size image_window_size sel
        num_bin padding_RP r1 r2 r3 ur = .ok r) :
    imagesLen r.images = r.image_labels.length ∧
      r.image_labels.length = r.price_at_image.length := by
  obtain ⟨-, hp, hl, -, -, -, hdisj⟩ := data_to_labelled_img_ok_inv h
  have hlp : r.image_labels.length = r.price_at_image.length := by
    rw [hp, hl, List.length_map, length_pySlice, length_pySlice]
    simp only [List.length_map, hlab]
  refine ⟨?_, hlp⟩
  have hW' : (label_window_size + 1) / 2 ≤ image_window_size := hW
  have hW1 : 1 ≤ image_window_size := by omega
  have himg : ((imagesLen r.images : Nat) : Int)
      = ((trimmedSeries data label_window_size ur).length : Int) - image_window_size + 1 := by
    rcases hdisj with ⟨s, -, hks, him⟩ | ⟨l, -, hlen1, hall, him⟩
    · rw [him]
      fin_cases hks
      · simpa [imagesLen, knownImages] using hG
      · simpa [imagesLen, knownImages] using hD
      · simpa [imagesLen, knownImages] using hR
      · simpa [imagesLen, knownImages] using hM
    · rw [him]
      cases l with
      | nil => simp at hlen1
      | cons n0 rest =>
        simp only [imagesLen, List.map_cons, length_stackChannelsLast]
        have hn0 : n0 ∈ knownStrats := hall n0 (List.mem_cons_self n0 rest)
        fin_cases hn0
        · simpa [knownImages] using hG
        · simpa [knownImages] using hD
        · simpa [knownImages] using hR
        · simpa [knownImages] using hM
  have f1 : r.image_labels.length =
      sliceIdx data.length (labelSliceStop label_window_size)
        - sliceIdx data.length (labelSliceStart image_window_size ur) := by
    rw [hl, length_pySlice]
    simp only [List.length_map, hlab]
  cases ur with
  | false =>
    have hT : (trimmedSeries data label_window_size false).length
        = sliceIdx data.length (labelSliceStop label_window_size) := by
      unfold trimmedSeries
      rw [length_pySlice, sliceIdx_zero, Nat.sub_zero]
      congr 1
    rw [show labelSliceStart image_window_size false = (image_window_size : Int) - 1 from rfl,
      sliceIdx_int_sub_one _ _ hW1] at f1
    by_cases hk : label_window_size / 2 = 0
    · have hstopz : labelSliceStop label_window_size = 0 := by
        unfold labelSliceStop
        rw [hk]
        simp
      rw [hstopz, sliceIdx_zero] at f1 hT
      rw [hT] at himg
      omega
    · have hb := Nat.pos_of_ne_zero hk
      rw [show labelSliceStop label_window_size
          = -((label_window_size / 2 : Nat) : Int) from rfl, sliceIdx_neg _ _ hb] at f1 hT
      rw [hT] at himg
      omega
  | true =>
    have hT : (trimmedSeries data label_window_size true).length
        = sliceIdx (data.length - 1) (labelSliceStop label_window_size) := by
      unfold trimmedSeries
      rw [length_pySlice, sliceIdx_zero, Nat.sub_zero]
      congr 1
      simp [length_returnsOf]
    rw [show labelSliceStart image_window_size true = ((image_window_size : Nat) : Int) from rfl,
      sliceIdx_ofNat] at f1
    by_cases hk : label_window_size / 2 = 0
    · have hstopz : labelSliceStop label_window_size = 0 := by
        unfold labelSliceStop
        rw [hk]
        simp
      rw [hstopz, sliceIdx_zero] at f1 hT
      rw [hT] at himg
      omega
    · have hb := Nat.pos_of_ne_zero hk
      rw [show labelSliceStop label_window_size
          = -((label_window_size / 2 : Nat) : Int) from rfl, sliceIdx_neg _ _ hb] at f1 hT
      rw [hT] at himg
      omega

/-- Transforms returning exactly two one-pixel images, matching the
expected image count of the C2 witness call. -/
def witCountTransforms : Transforms :=
  ⟨fun _ _ _ => [[[1]], [[1]]], fun _ _ _ => [[[2]], [[2]]],
   fun _ _ _ _ => [[[3]], [[3]]], fun _ _ _ => [[[4]], [[4]]]⟩

/-- Witness for C2 at N = 4, L = 3, W = 2: two images, two labels, two
prices. -/
theorem claim_C2_witness :
    imagesLen (okPayload (data_to_labelled_img witLabeler witCountTransforms [1, 2, 3, 4] 3 2
        (.str "RP") 5 0 false false false false)).images
      = (okPayload (data_to_labelled_img witLabeler witCountTransforms [1, 2, 3, 4] 3 2
        (.str "RP") 5 0 false false false false)).image_labels.length ∧
    (okPayload (data_to_labelled_img witLabeler witCountTransforms [1, 2, 3, 4] 3 2
        (.str "RP") 5 0 false false false false)).image_labels.length
      = (okPayload (data_to_labelled_img witLabeler witCountTransforms [1, 2, 3, 4] 3 2
        (.str "RP") 5 0 false false false false)).price_at_image.length :=
  claim_C2 witLabeler witCountTransforms [1, 2, 3, 4] 3 2 (.str "RP") 5 0 false false false false
    (okPayload (data_to_labelled_img witLabeler witCountTransforms [1, 2, 3, 4] 3 2
      (.str "RP") 5 0 false false false false))
    (by decide) (by decide) (by decide) ⟨by decide, by decide⟩
    (by decide) (by decide) (by decide) (by decide) (by decide)
